import Mathlib

/-!
Shallow embedding of the progression / battle / inventory core of `src/main.py`
(a card-collecting chat game), together with theorems checking the claims of
the specification against it.

Modelling conventions:
* Python dict-based records become Lean structures.  Field `def` (a Lean
  keyword) is renamed to `defense`.
* Python `int(x)` on a float truncates toward zero; all float expressions in
  the source (`0.5`, `* 1.5`, `* 2`, `1 + 0.03*(level-1)`) take values that
  are exactly representable, so they are modelled by exact rational / integer
  arithmetic.  Truncation toward zero of a rational is `pyInt` below.
* `while` loops become structural recursion on an explicit fuel that is an
  exact bound on the number of iterations the Python loop can perform
  (`max_level - level` for the card level-up loop, `exp + 1` for the user
  level-up loop); sufficiency of the fuel is proved where a theorem needs it.
* Randomness (speed-tie coin flip) is passed in as an explicit parameter.
* A command either returns `Except.error msg` (the handler sends a message
  and returns without mutating or persisting anything) or `Except.ok` with
  the successor player state(s).
-/

set_option maxRecDepth 100000

namespace Testazzo

/-- Python `int()` applied to a rational: truncation toward zero.
`q.den` is positive and `Int.tdiv` rounds toward zero. -/
def pyInt (q : ℚ) : ℤ := Int.tdiv q.num q.den

inductive Rarity where
  | Common | Rare | Epic | Legendary
deriving DecidableEq, Repr

/-- `RARITY_MAX_LEVEL = {"Common": 30, "Rare": 40, "Epic": 50, "Legendary": 60}` -/
def RARITY_MAX_LEVEL : Rarity → Nat
  | .Common => 30
  | .Rare => 40
  | .Epic => 50
  | .Legendary => 60

/-- `RARITY_RANK = {"Common": 1, "Rare": 2, "Epic": 3, "Legendary": 4}` -/
def RARITY_RANK : Rarity → Nat
  | .Common => 1
  | .Rare => 2
  | .Epic => 3
  | .Legendary => 4

/-- Base stats of a character; the source dict key `def` is renamed `defense`. -/
structure BaseStats where
  hp : Nat
  atk : Nat
  defense : Nat
  spd : Nat
deriving DecidableEq, Repr

/-- An entry of the `CHARACTERS` catalog. -/
structure Character where
  id : String
  name : String
  base : BaseStats
  ability : String
  image : String
deriving DecidableEq, Repr

def hilde : Character :=
  { id := "hilde", name := "Hilde"
    base := { hp := 89, atk := 65, defense := 92, spd := 65 }
    ability := "First turn: +100% DEF"
    image := "ref:IMG_6210.jpg" }

def joo_shiyoon : Character :=
  { id := "joo_shiyoon", name := "Joo Shiyoon"
    base := { hp := 60, atk := 95, defense := 86, spd := 89 }
    ability := "First turn: +100% SPD"
    image := "ref:IMG_6211.jpg" }

def yoo_mina : Character :=
  { id := "yoo_mina", name := "Yoo Mina"
    base := { hp := 75, atk := 75, defense := 75, spd := 85 }
    ability := "First turn: +50% ATK"
    image := "ref:IMG_6213.webp" }

def CHARACTERS : List Character := [hilde, joo_shiyoon, yoo_mina]

/-- An owned card instance (dict created by `create_card_instance`). -/
structure Card where
  instance_id : String
  id : String
  name : String
  rarity : Rarity
  level : Nat
  exp : Nat
  max_level : Nat
  base : BaseStats
  ability : String
deriving DecidableEq, Repr

/-- A player record as created by `ensure_user`. -/
structure User where
  stamina : Nat
  gold : Nat
  inventory : List Card
  last_hourly : ℚ
  level : Nat
  exp : Nat
  floor : Nat
  floor_unlocked : Nat
  selected : Option String
deriving DecidableEq, Repr

/-! ## Progression rules -/

/-- `def exp_to_next(level): return 100 * level` -/
def exp_to_next (level : Nat) : Nat := 100 * level

/-- Iterations of the `while user["exp"] >= exp_to_next(user["level"])` loop of
`maybe_level_up_user`: subtract the threshold, increment the level, add the
+5 stamina bonus.  The fuel bounds the number of iterations; a level-0 state
iterates once without consuming experience, every other iteration consumes at
least 100 experience, so `exp + 1` iterations always suffice (proved in
`userLoop_fuel_sufficient`). -/
def userLoop : Nat → Nat → Nat → Nat → Nat × Nat × Nat
  | 0, level, exp, stamina => (level, exp, stamina)
  | fuel + 1, level, exp, stamina =>
    if exp_to_next level ≤ exp then
      userLoop fuel (level + 1) (exp - exp_to_next level) (stamina + 5)
    else (level, exp, stamina)

/-- `maybe_level_up_user`: cascaded user level-up; each level gained also adds
the fixed 5 stamina bonus.  Returns (level, exp, stamina). -/
def maybe_level_up_user (level exp stamina : Nat) : Nat × Nat × Nat :=
  userLoop (exp + 1) level exp stamina

/-- Iterations of the card level-up loop
(`while target_card["level"] < target_card["max_level"]: ...`), fuel =
`max_level - level`, which is exactly the maximal number of iterations since
each iteration increments the level and the loop stops at `max_level`. -/
def cardLoop : Nat → Nat → Nat → Nat × Nat
  | 0, level, exp => (level, exp)
  | fuel + 1, level, exp =>
    if 100 * level ≤ exp then cardLoop fuel (level + 1) (exp - 100 * level)
    else (level, exp)

/-- The card level-up cascade used by `enhance_cmd` and the battle victory
branch: level up while `exp >= 100 * level`, stopping hard at `max_level`. -/
def card_level_up (level exp max_level : Nat) : Nat × Nat :=
  cardLoop (max_level - level) level exp

/-! ## Damage and enemies -/

/-- `damage_formula`: `max(1, int(attacker_atk - defender_def * 0.5))`. -/
def damage_formula (atk df : Nat) : ℤ :=
  max 1 (pyInt ((atk : ℚ) - (df : ℚ) * (0.5 : ℚ)))

/-- `make_enemy_for_floor` stats (name/image omitted). -/
structure Enemy where
  hp : Nat
  atk : Nat
  defense : Nat
  spd : Nat
deriving DecidableEq, Repr

def make_enemy_for_floor (floor : Nat) : Enemy :=
  { hp := 120 + (floor - 1) * 80
    atk := 25 + (floor - 1) * 10
    defense := 10 + (floor - 1) * 5
    spd := 20 + (floor - 1) * 2 }

/-- Level scaling of a card stat used by `battle_cmd`:
`int(stat * (1 + 0.03 * (lvl - 1)))`.  For every level `l ≥ 0` the multiplier
equals `(97 + 3*l)/100` exactly, and the product is nonnegative, so the
truncation is Nat division. -/
def scaled_stat (stat lvl : Nat) : Nat := stat * (97 + 3 * lvl) / 100

/-! ## Battle state machine -/

/-- Python's substring test `needle in hay`. -/
def pyIn (needle hay : String) : Bool := decide (needle.data <:+: hay.data)

/-- The player's mutable effective combat stats (`p_atk`, `p_def`, `p_spd`). -/
structure PStats where
  atk : Nat
  defense : Nat
  spd : Nat
deriving DecidableEq, Repr

/-- First-turn ability resolution of `battle_cmd`: keyword match on the
ability text, `if/elif` so at most one branch applies.
`int(x * 2) = 2 * x` and `int(x * 1.5) = 3 * x / 2` exactly. -/
def apply_ability (ability : String) (s : PStats) : PStats :=
  if ability = "" then s
  else if pyIn "DEF" ability then { s with defense := s.defense * 2 }
  else if pyIn "SPD" ability then { s with spd := s.spd * 2 }
  else if pyIn "ATK" ability then { s with atk := 3 * s.atk / 2 }
  else s

inductive Actor where
  | player | enemy
deriving DecidableEq, Repr

/-- Initiative: compare (possibly buffed) speeds; on an exact tie the coin
flip `tie` (`random.choice([True, False])`) decides, fixed for the battle. -/
def turn_order (p_spd e_spd : Nat) (tie : Bool) : List Actor :=
  if e_spd < p_spd then [.player, .enemy]
  else if p_spd < e_spd then [.enemy, .player]
  else if tie then [.player, .enemy]
  else [.enemy, .player]

/-- Mutable state of the battle loop: both HP counters (clamped at 0), the
player's current stats and the `buff_applied` flag. -/
structure BState where
  pHP : Nat
  eHP : Nat
  cur : PStats
  buff : Bool
deriving DecidableEq, Repr

/-- One action of the round's `for actor in turn_order` loop.  An actor whose
turn comes when either side is already at 0 HP does nothing (the `break`s).
After the player's attack the first-turn buff is reverted
(`if buff_applied: p_atk = p_atk_base; ...`).  Returns the new state and the
log entry (actor, damage dealt). -/
def act (pbase : PStats) (e : Enemy) (a : Actor) (st : BState) :
    BState × List (Actor × ℤ) :=
  if st.pHP = 0 ∨ st.eHP = 0 then (st, [])
  else
    match a with
    | .player =>
      let dmg := damage_formula st.cur.atk e.defense
      let st1 := { st with eHP := ((st.eHP : ℤ) - dmg).toNat }
      let st2 := if st1.buff then { st1 with cur := pbase, buff := false } else st1
      (st2, [(.player, dmg)])
    | .enemy =>
      let dmg := damage_formula e.atk st.cur.defense
      ({ st with pHP := ((st.pHP : ℤ) - dmg).toNat }, [(.enemy, dmg)])

/-- One full round: both combatants act once in the fixed order. -/
def doRound (pbase : PStats) (e : Enemy) (order : List Actor) (st : BState) :
    BState × List (Actor × ℤ) :=
  order.foldl
    (fun acc a =>
      let r := act pbase e a acc.1
      (r.1, acc.2 ++ r.2))
    (st, [])

/-- The `while player_hp > 0 and enemy_hp > 0 and round < max_turns` loop;
the fuel is instantiated with `max_turns = 40`.  Returns the final state, the
action log, and the number of rounds executed. -/
def battleLoop (pbase : PStats) (e : Enemy) (order : List Actor) :
    Nat → BState → BState × List (Actor × ℤ) × Nat
  | 0, st => (st, [], 0)
  | fuel + 1, st =>
    if 0 < st.pHP ∧ 0 < st.eHP then
      let r1 := doRound pbase e order st
      let r2 := battleLoop pbase e order fuel r1.1
      (r2.1, r1.2 ++ r2.2.1, r2.2.2 + 1)
    else (st, [], 0)

inductive Outcome where
  | Victory | Defeat | Draw
deriving DecidableEq, Repr

/-- Final result classification of `battle_cmd`. -/
def outcome_of (st : BState) : Outcome :=
  if st.eHP = 0 ∧ 0 < st.pHP then .Victory
  else if st.pHP = 0 ∧ 0 < st.eHP then .Defeat
  else .Draw

/-- Replace the card with the given instance id (the source mutates the
`chosen` / `target_card` dict in place inside the inventory list). -/
def update_card (inv : List Card) (iid : String) (c' : Card) : List Card :=
  inv.map (fun c => if c.instance_id = iid then c' else c)

/-- Result of a successful `battle_cmd` run: `mid` is the player state that is
persisted right after the stamina charge (before resolution), `final` the
state persisted at the end. -/
structure BattleRes where
  mid : User
  final : User
  outcome : Outcome
  order : List Actor
  log : List (Actor × ℤ)
  rounds : Nat
deriving DecidableEq, Repr

/-- `battle_cmd`: precondition checks (stamina, selection, ownership), then
the stamina charge (persisted immediately: `mid`), stat derivation, ability
resolution, initiative, the round loop, and reward/penalty application.
The source file's final `if/else` block appears twice (a merge artifact);
both copies apply the same `max(0, stamina - 3)` penalty on every
non-victory outcome. -/
def battle_cmd (u : User) (tie : Bool) : Except String BattleRes :=
  if u.stamina < 5 then .error "Not enough stamina. You need 5 to battle."
  else
    match u.selected with
    | none => .error "No character selected."
    | some sid =>
      match u.inventory.find? (fun c => c.instance_id == sid) with
      | none => .error "Your selected character was not found."
      | some chosen =>
        let u1 : User := { u with stamina := u.stamina - 5 }
        let floor := u.floor
        let enemy := make_enemy_for_floor floor
        let pbase : PStats :=
          { atk := scaled_stat chosen.base.atk chosen.level
            defense := scaled_stat chosen.base.defense chosen.level
            spd := scaled_stat chosen.base.spd chosen.level }
        let pHPmax := scaled_stat chosen.base.hp chosen.level
        let buffed := apply_ability chosen.ability pbase
        let order := turn_order buffed.spd enemy.spd tie
        let st0 : BState := { pHP := pHPmax, eHP := enemy.hp, cur := buffed, buff := true }
        let r := battleLoop pbase enemy order 40 st0
        let res := outcome_of r.1
        match res with
        | .Victory =>
          let gold_gain := 50 + floor * 10
          let exp_gain_user := 30 + floor * 5
          let exp_gain_card := 40 + floor * 10
          let cl := card_level_up chosen.level (chosen.exp + exp_gain_card) chosen.max_level
          let chosen' := { chosen with level := cl.1, exp := cl.2 }
          let ul := maybe_level_up_user u1.level (u1.exp + exp_gain_user) u1.stamina
          let u2 : User :=
            { u1 with
                gold := u1.gold + gold_gain
                level := ul.1, exp := ul.2.1, stamina := ul.2.2
                inventory := update_card u1.inventory chosen.instance_id chosen'
                floor_unlocked :=
                  if u1.floor_unlocked < floor + 1 then floor + 1 else u1.floor_unlocked }
          .ok { mid := u1, final := u2, outcome := res, order := order,
                log := r.2.1, rounds := r.2.2 }
        | _ =>
          let u2 : User := { u1 with stamina := u1.stamina - 3 }
          .ok { mid := u1, final := u2, outcome := res, order := order,
                log := r.2.1, rounds := r.2.2 }

/-! ## Floor commands -/

/-- `-floor next`. -/
def floor_next (u : User) : Except String User :=
  if 10 ≤ u.floor then .error "You are already at the maximum floor (10)."
  else if u.floor_unlocked < u.floor + 1 then .error "Next floor is locked."
  else .ok { u with floor := u.floor + 1 }

/-- `-floor <n>`: allowed whenever `1 <= n <= floor_unlocked`. -/
def floor_set (u : User) (n : Nat) : Except String User :=
  if 1 ≤ n ∧ n ≤ u.floor_unlocked then .ok { u with floor := n }
  else .error "Cannot set floor."

/-! ## Inventory sorting -/

/-- Python `int(s)` on a string (sign handling; digits otherwise). -/
def pyStrToInt (s : String) : Option ℤ :=
  if s.startsWith "-" then ((s.drop 1).toNat?).map (fun n => -(n : ℤ))
  else (s.toNat?).map (fun n => (n : ℤ))

/-- `inst_time` of `sort_inventory`: the millisecond timestamp embedded as the
second `_`-separated component of the instance id, 0 on any parse failure. -/
def inst_time (c : Card) : ℤ :=
  (((c.instance_id.splitOn "_")[1]?).bind pyStrToInt).getD 0

/-- The Python sort key `(-RARITY_RANK[rarity], -level, -inst_time(c))`. -/
def sort_key (c : Card) : ℤ × ℤ × ℤ :=
  (-(RARITY_RANK c.rarity : ℤ), -(c.level : ℤ), -(inst_time c))

/-- Lexicographic (non-strict) comparison of sort keys, as used by Python's
`sorted` on key tuples. -/
def key_le (a b : ℤ × ℤ × ℤ) : Bool :=
  decide (a.1 < b.1) || (a.1 == b.1 &&
    (decide (a.2.1 < b.2.1) || (a.2.1 == b.2.1 && decide (a.2.2 ≤ b.2.2))))

/-- Strict lexicographic comparison of sort keys: "sorts strictly before". -/
def key_lt (a b : ℤ × ℤ × ℤ) : Bool :=
  decide (a.1 < b.1) || (a.1 == b.1 &&
    (decide (a.2.1 < b.2.1) || (a.2.1 == b.2.1 && decide (a.2.2 < b.2.2))))

def card_le (a b : Card) : Bool := key_le (sort_key a) (sort_key b)

/-- `sort_inventory`: Python's `sorted` is a stable sort by the key tuple,
i.e. a stable merge sort under `card_le`. -/
def sort_inventory (inv : List Card) : List Card := inv.mergeSort card_le

/-! ## Enhancement -/

/-- The `-r` / `-n` filter of `enhance_cmd` (name compare is
case-insensitive in the source). -/
def matches_filter (fr : Option Rarity) (fn : Option String) (c : Card) : Bool :=
  (match fr with
   | some r => c.rarity == r
   | none => true) &&
  (match fn with
   | some n => c.name.toLower == n.toLower
   | none => true)

/-- The candidate-gathering loop of `enhance_cmd`: walk the inventory in
order, skip the target instance (`c is target_card`, i.e. position `tpos`),
keep the cards matching the filter. -/
def gather_candidates (fr : Option Rarity) (fn : Option String) (tpos : Nat) :
    Nat → List Card → List Card
  | _, [] => []
  | i, c :: rest =>
    if i ≠ tpos ∧ matches_filter fr fn c then
      c :: gather_candidates fr fn tpos (i + 1) rest
    else gather_candidates fr fn tpos (i + 1) rest

/-- `rarity_mul = {"Common": 1, "Rare": 1.5, "Epic": 2, "Legendary": 3}`. -/
def rarity_mul : Rarity → ℚ
  | .Common => 1
  | .Rare => 1.5
  | .Epic => 2
  | .Legendary => 3

/-- `enhance_cmd` with the target given by instance id (the source also
accepts a 1-based index into the ranked order, which resolves to a target
card and then follows the same path).  `flag_l` is the count `N`. -/
def enhance_cmd (u : User) (target : String) (fr : Option Rarity)
    (fn : Option String) (fl : Nat) : Except String User :=
  match u.inventory.find? (fun c => c.instance_id == target) with
  | none => .error "Target card not found in inventory."
  | some tcard =>
    let inv := u.inventory
    let tpos := inv.findIdx (fun c => c.instance_id == target)
    let candidates := gather_candidates fr fn tpos 0 inv
    if candidates.length < fl then .error "Not enough cards to use."
    else
      let to_use := candidates.take fl
      let gained : ℚ := (to_use.map (fun c => 50 * rarity_mul c.rarity)).sum
      let inv1 := to_use.foldl (fun acc c => acc.erase c) inv
      let newExp := tcard.exp + (pyInt gained).toNat
      let cl := card_level_up tcard.level newExp tcard.max_level
      let tcard' := { tcard with level := cl.1, exp := cl.2 }
      .ok { u with inventory := update_card inv1 target tcard' }

/-! ## Persistent store and `ensure_user`

Player records as they sit in `data.json` may lack per-card fields (older
revisions), which `ensure_user` backfills ("basic migration").  Missing
fields are modelled with `Option`. -/

/-- A stored card, possibly missing the fields the migration backfills. -/
structure RawCard where
  instance_id : String
  id : String
  name : String
  rarity : Option Rarity
  level : Option Nat
  exp : Option Nat
  max_level : Option Nat
  base : Option BaseStats
  ability : Option String
  image : Option String
deriving DecidableEq, Repr

/-- The per-card migration loop body of `ensure_user`:
`setdefault("level", 1)`, `setdefault("exp", 0)`, backfill `max_level` from
the rarity (default Common ↦ 30), and if `base` is absent look the template
up by `id` in `CHARACTERS`, also defaulting `ability` and `image` from it. -/
def normalize_card (c : RawCard) : RawCard :=
  let c1 := if c.level.isNone then { c with level := some 1 } else c
  let c2 := if c1.exp.isNone then { c1 with exp := some 0 } else c1
  let c3 :=
    if c2.max_level.isNone then
      { c2 with max_level := some (RARITY_MAX_LEVEL (c2.rarity.getD .Common)) }
    else c2
  if c3.base.isNone then
    match CHARACTERS.find? (fun b => b.id == c3.id) with
    | some b =>
      let c4 := { c3 with base := some b.base }
      let c5 := if c4.ability.isNone then { c4 with ability := some b.ability } else c4
      if c5.image.isNone then { c5 with image := some b.image } else c5
    | none => c3
  else c3

/-- A stored player record (`data["users"][uid]`). -/
structure RawUser where
  stamina : Nat
  gold : Nat
  inventory : List RawCard
  last_hourly : ℚ
  level : Nat
  exp : Nat
  floor : Nat
  floor_unlocked : Nat
  selected : Option String
deriving DecidableEq, Repr

/-- The fresh record `ensure_user` installs for an unseen id. -/
def default_user : RawUser :=
  { stamina := 20, gold := 0, inventory := [], last_hourly := 0
    level := 1, exp := 0, floor := 1, floor_unlocked := 1, selected := none }

/-- The `data["users"]` mapping, modelled as an association list. -/
def Store := List (String × RawUser)

/-- Run the card migration over a user's inventory (top-level fields are
never touched by `ensure_user`). -/
def migrate_user (u : RawUser) : RawUser :=
  { u with inventory := u.inventory.map normalize_card }

/-- `ensure_user(user_id)`: create the default record if the id is unseen,
then normalize the record's inventory in place.  Returns the updated store
together with the user record the command handler goes on to use. -/
def ensure_user (store : Store) (uid : String) : Store × RawUser :=
  match store.lookup uid with
  | none =>
    let u := migrate_user default_user
    ((uid, u) :: store, u)
  | some u =>
    let u' := migrate_user u
    (store.map (fun kv => if kv.1 = uid then (kv.1, u') else kv), u')

/-- The integer enhancement experience actually granted per sacrificed card:
`50 * rarity_mul` is a whole number for every rarity. -/
def enhance_exp : Rarity → Nat
  | .Common => 50
  | .Rare => 75
  | .Epic => 100
  | .Legendary => 150

/-- The base stats the battle derives for the selected card
(`p_atk_base`, `p_def_base`, `p_spd_base`). -/
def player_base_stats (c : Card) : PStats :=
  { atk := scaled_stat c.base.atk c.level
    defense := scaled_stat c.base.defense c.level
    spd := scaled_stat c.base.spd c.level }

/-! # Helper lemmas -/

theorem pyInt_eq_floor {q : ℚ} (h : 0 ≤ q) : pyInt q = ⌊q⌋ := by
  rw [Rat.floor_def, pyInt]
  exact Int.tdiv_eq_ediv (Rat.num_nonneg.mpr h) (by positivity)

theorem pyInt_nonpos {q : ℚ} (h : q ≤ 0) : pyInt q ≤ 0 := by
  have hnum : q.num ≤ 0 := Rat.num_nonpos.mpr h
  have hden : (0 : ℤ) ≤ (q.den : ℤ) := by positivity
  have h1 : (0 : ℤ) ≤ -q.num := by omega
  have h2 : Int.tdiv q.num q.den = -(Int.tdiv (-q.num) q.den) := by
    rw [← Int.neg_tdiv, neg_neg]
  have h3 : 0 ≤ Int.tdiv (-q.num) q.den := Int.tdiv_nonneg h1 hden
  rw [pyInt, h2]
  omega

/-- `pyInt` of a natural number is that number. -/
theorem pyInt_natCast (n : Nat) : pyInt (n : ℚ) = n := by
  rw [pyInt]
  simp [Rat.num_natCast, Rat.den_natCast, Int.tdiv_one]

theorem cardLoop_stop (fuel level exp : Nat) (h : exp < 100 * level) :
    cardLoop fuel level exp = (level, exp) := by
  cases fuel with
  | zero => rfl
  | succ f => rw [cardLoop, if_neg (by omega)]

theorem userLoop_stop (fuel level exp stamina : Nat) (h : exp < exp_to_next level) :
    userLoop fuel level exp stamina = (level, exp, stamina) := by
  cases fuel with
  | zero => rfl
  | succ f => rw [userLoop, if_neg (by omega)]

/-- The fuel `exp + 1` of `maybe_level_up_user` always suffices: the loop in
fact stops because the remaining experience is below the threshold. -/
theorem userLoop_terminal (fuel : Nat) :
    ∀ level exp stamina, exp + (if level = 0 then 1 else 0) ≤ fuel →
      (userLoop fuel level exp stamina).2.1 <
        exp_to_next (userLoop fuel level exp stamina).1 := by
  induction fuel with
  | zero =>
    intro level exp stamina h
    have hl : level ≠ 0 := by
      intro hc
      rw [hc, if_pos rfl] at h
      omega
    have he : exp = 0 := by split at h <;> omega
    rw [userLoop]
    simp only [exp_to_next, he]
    omega
  | succ f ih =>
    intro level exp stamina h
    rw [userLoop]
    by_cases hc : exp_to_next level ≤ exp
    · rw [if_pos hc]
      apply ih
      have hne : level + 1 ≠ 0 := by omega
      rw [if_neg hne]
      simp only [exp_to_next] at hc
      rcases Nat.eq_zero_or_pos level with hl | hl
      · rw [hl, if_pos rfl] at h
        simp only [exp_to_next, hl]
        omega
      · rw [if_neg (by omega)] at h
        simp only [exp_to_next]
        omega
    · rw [if_neg hc]
      simp only [exp_to_next] at hc ⊢
      omega

/-- The card cascade can raise the level by at most `fuel`. -/
theorem cardLoop_level_le (fuel : Nat) :
    ∀ level exp, (cardLoop fuel level exp).1 ≤ level + fuel := by
  induction fuel with
  | zero => intro level exp; simp [cardLoop]
  | succ f ih =>
    intro level exp
    rw [cardLoop]
    by_cases hc : 100 * level ≤ exp
    · rw [if_pos hc]
      have := ih (level + 1) (exp - 100 * level)
      omega
    · rw [if_neg hc]
      simp

/-! # Claims -/

/-- C7: the damage formula equals `max(1, floor(atk - def * 0.5))` and is at
least 1 for all non-negative (natural) inputs.  The source truncates toward
zero rather than flooring, but the two can only differ on negative values,
which the outer `max 1` absorbs. -/
theorem C7_damage_formula (atk df : Nat) :
    damage_formula atk df = max 1 ⌊(atk : ℚ) - (df : ℚ) * (0.5 : ℚ)⌋ ∧
    1 ≤ damage_formula atk df := by
  constructor
  · unfold damage_formula
    rcases le_or_lt 0 ((atk : ℚ) - (df : ℚ) * (0.5 : ℚ)) with h | h
    · rw [pyInt_eq_floor h]
    · have h1 : pyInt ((atk : ℚ) - (df : ℚ) * (0.5 : ℚ)) ≤ 0 := pyInt_nonpos h.le
      have h2 : ⌊(atk : ℚ) - (df : ℚ) * (0.5 : ℚ)⌋ ≤ 0 := Int.floor_nonpos h.le
      rw [max_eq_left (by omega), max_eq_left (by omega)]
  · exact le_max_left _ _

/-- C2: the experience threshold at level L is `100 * L`; the level-up
cascade (user or card) subtracts the threshold and increments the level while
the experience suffices — granting exactly `threshold(L)` at level L yields
exactly one level-up with zero leftover (and, for the user, the +5 stamina
bonus); the cascade always stops with leftover experience strictly below the
next threshold; the card cascade additionally never exceeds `max_level` and
at `max_level` retains any excess experience unchanged. -/
theorem C2_level_cascade (L M e s : Nat) (hL : 1 ≤ L) (hLM : L < M) :
    exp_to_next L = 100 * L ∧
    maybe_level_up_user L (100 * L) s = (L + 1, 0, s + 5) ∧
    (∀ ex, (maybe_level_up_user L ex s).2.1 <
      exp_to_next (maybe_level_up_user L ex s).1) ∧
    card_level_up L (100 * L) M = (L + 1, 0) ∧
    (∀ l ex, l ≤ M → (card_level_up l ex M).1 ≤ M) ∧
    card_level_up M e M = (M, e) := by
  refine ⟨rfl, ?_, ?_, ?_, ?_, ?_⟩
  · rw [maybe_level_up_user, userLoop, if_pos (by simp [exp_to_next])]
    have h1 : 100 * L - exp_to_next L = 0 := by simp [exp_to_next]
    rw [h1]
    exact userLoop_stop _ _ _ _ (by simp [exp_to_next])
  · intro ex
    apply userLoop_terminal
    have : L ≠ 0 := by omega
    simp [this]
  · rw [card_level_up]
    obtain ⟨k, hk⟩ : ∃ k, M - L = k + 1 := ⟨M - L - 1, by omega⟩
    rw [hk, cardLoop, if_pos (by omega)]
    have h1 : 100 * L - 100 * L = 0 := by omega
    rw [h1]
    exact cardLoop_stop _ _ _ (by omega)
  · intro l ex hl
    rw [card_level_up]
    have := cardLoop_level_le (M - l) l ex
    omega
  · rw [card_level_up, Nat.sub_self]
    rfl

/-- Witness for `C2_level_cascade` at level 1, max level 30. -/
theorem C2_level_cascade_witness :
    1 ≤ 1 ∧ 1 < 30 ∧
    (exp_to_next 1 = 100 * 1 ∧
     maybe_level_up_user 1 (100 * 1) 7 = (1 + 1, 0, 7 + 5) ∧
     (∀ ex, (maybe_level_up_user 1 ex 7).2.1 <
       exp_to_next (maybe_level_up_user 1 ex 7).1) ∧
     card_level_up 1 (100 * 1) 30 = (1 + 1, 0) ∧
     (∀ l ex, l ≤ 30 → (card_level_up l ex 30).1 ≤ 30) ∧
     card_level_up 30 123 30 = (30, 123)) :=
  ⟨by omega, by omega, C2_level_cascade 1 30 123 7 (by omega) (by omega)⟩

/-- Field-wise characterization of the per-card migration: identity fields
and the rarity are untouched, present fields are preserved, missing
level/exp/max_level are backfilled with 1 / 0 / the rarity's max level. -/
theorem normalize_card_spec (c : RawCard) :
    (normalize_card c).instance_id = c.instance_id ∧
    (normalize_card c).id = c.id ∧
    (normalize_card c).name = c.name ∧
    (normalize_card c).rarity = c.rarity ∧
    (normalize_card c).level = some (c.level.getD 1) ∧
    (normalize_card c).exp = some (c.exp.getD 0) ∧
    (normalize_card c).max_level =
      some (c.max_level.getD (RARITY_MAX_LEVEL (c.rarity.getD .Common))) ∧
    (∀ b, c.base = some b → (normalize_card c).base = some b) ∧
    (∀ a, c.ability = some a → (normalize_card c).ability = some a) := by
  obtain ⟨iid, cid, cname, crar, clvl, cexp, cml, cbase, cab, cim⟩ := c
  unfold normalize_card
  rcases clvl with _ | l <;> rcases cexp with _ | e <;> rcases cml with _ | m <;>
    rcases cbase with _ | b <;> rcases cab with _ | a <;> rcases cim with _ | im <;>
    simp_all <;>
    (cases hf : CHARACTERS.find? (fun t => t.id == cid) <;> simp_all)

/-- C10: `ensure_user` creates, for an unseen id, the record with stamina 20,
gold 0, empty inventory, level 1, experience 0, floor 1, unlocked floor 1,
no selection and last-hourly timestamp 0; for a known id it keeps every
top-level field and only backfills missing per-card fields (preserving
present ones). -/
theorem C10_ensure_user (store : Store) (uid : String) :
    (store.lookup uid = none →
      ensure_user store uid = ((uid, default_user) :: store, default_user) ∧
      default_user.stamina = 20 ∧ default_user.gold = 0 ∧
      default_user.inventory = [] ∧ default_user.level = 1 ∧
      default_user.exp = 0 ∧ default_user.floor = 1 ∧
      default_user.floor_unlocked = 1 ∧ default_user.selected = none ∧
      default_user.last_hourly = 0) ∧
    (∀ u, store.lookup uid = some u →
      (ensure_user store uid).2.stamina = u.stamina ∧
      (ensure_user store uid).2.gold = u.gold ∧
      (ensure_user store uid).2.level = u.level ∧
      (ensure_user store uid).2.exp = u.exp ∧
      (ensure_user store uid).2.floor = u.floor ∧
      (ensure_user store uid).2.floor_unlocked = u.floor_unlocked ∧
      (ensure_user store uid).2.selected = u.selected ∧
      (ensure_user store uid).2.last_hourly = u.last_hourly ∧
      (ensure_user store uid).2.inventory = u.inventory.map normalize_card) ∧
    (∀ c : RawCard,
      (normalize_card c).instance_id = c.instance_id ∧
      (normalize_card c).id = c.id ∧
      (normalize_card c).name = c.name ∧
      (normalize_card c).rarity = c.rarity ∧
      (normalize_card c).level = some (c.level.getD 1) ∧
      (normalize_card c).exp = some (c.exp.getD 0) ∧
      (normalize_card c).max_level =
        some (c.max_level.getD (RARITY_MAX_LEVEL (c.rarity.getD .Common))) ∧
      (∀ b, c.base = some b → (normalize_card c).base = some b) ∧
      (∀ a, c.ability = some a → (normalize_card c).ability = some a)) := by
  refine ⟨?_, ?_, fun c => normalize_card_spec c⟩
  · intro h
    refine ⟨?_, rfl, rfl, rfl, rfl, rfl, rfl, rfl, rfl, rfl⟩
    simp [ensure_user, h, migrate_user, default_user]
  · intro u h
    simp [ensure_user, h, migrate_user]

/-- A stored card missing level/exp/max_level/base, to exercise migration. -/
def c10RawCard : RawCard :=
  { instance_id := "hilde_1700000000000_1234", id := "hilde", name := "Hilde"
    rarity := some .Rare, level := none, exp := none, max_level := none
    base := none, ability := none, image := none }

def c10RawUser : RawUser :=
  { stamina := 7, gold := 3, inventory := [c10RawCard], last_hourly := 5
    level := 2, exp := 40, floor := 1, floor_unlocked := 2, selected := none }

/-- Witness for `C10_ensure_user`: a fresh id on the empty store and a known
id bound to `c10RawUser`. -/
theorem C10_ensure_user_witness :
    (([] : Store).lookup "p" = none ∧
      ensure_user [] "p" = ([("p", default_user)], default_user)) ∧
    (([("q", c10RawUser)] : Store).lookup "q" = some c10RawUser ∧
      (ensure_user [("q", c10RawUser)] "q").2.stamina = c10RawUser.stamina ∧
      (ensure_user [("q", c10RawUser)] "q").2.inventory =
        c10RawUser.inventory.map normalize_card) :=
  ⟨⟨rfl, ((C10_ensure_user [] "p").1 rfl).1⟩,
   ⟨rfl, ((C10_ensure_user [("q", c10RawUser)] "q").2.1 c10RawUser rfl).1,
    (((C10_ensure_user [("q", c10RawUser)] "q").2.1 c10RawUser rfl).2.2.2.2.2.2.2.2)⟩⟩

theorem key_le_trans (x y z : ℤ × ℤ × ℤ) (h1 : key_le x y = true)
    (h2 : key_le y z = true) : key_le x z = true := by
  obtain ⟨x1, x2, x3⟩ := x
  obtain ⟨y1, y2, y3⟩ := y
  obtain ⟨z1, z2, z3⟩ := z
  simp only [key_le, Bool.or_eq_true, Bool.and_eq_true, decide_eq_true_eq, beq_iff_eq] at *
  omega

theorem key_le_total (x y : ℤ × ℤ × ℤ) : (key_le x y || key_le y x) = true := by
  obtain ⟨x1, x2, x3⟩ := x
  obtain ⟨y1, y2, y3⟩ := y
  simp only [key_le, Bool.or_eq_true, Bool.and_eq_true, decide_eq_true_eq, beq_iff_eq]
  omega

theorem key_lt_trichotomy (x y : ℤ × ℤ × ℤ) (h : x ≠ y) :
    (key_lt x y = true ∧ key_lt y x = false) ∨
    (key_lt y x = true ∧ key_lt x y = false) := by
  obtain ⟨x1, x2, x3⟩ := x
  obtain ⟨y1, y2, y3⟩ := y
  simp only [ne_eq, Prod.mk.injEq, not_and] at h
  simp only [key_lt, Bool.or_eq_true, Bool.and_eq_true, decide_eq_true_eq, beq_iff_eq,
    Bool.or_eq_false_iff, Bool.and_eq_false_iff, decide_eq_false_iff_not, beq_eq_false_iff_ne]
  by_cases h1 : x1 = y1
  · by_cases h2 : x2 = y2
    · have h3 : x3 ≠ y3 := fun hc => (h h1 h2) hc
      omega
    · omega
  · omega

/-- Two distinct Common level-1 cards whose instance ids embed the same
millisecond timestamp and differ only in the random suffix. -/
def c8a : Card :=
  { instance_id := "hilde_1700000000000_1111", id := "hilde", name := "Hilde"
    rarity := .Common, level := 1, exp := 0, max_level := 30
    base := hilde.base, ability := hilde.ability }

def c8b : Card :=
  { instance_id := "hilde_1700000000000_2222", id := "hilde", name := "Hilde"
    rarity := .Common, level := 1, exp := 0, max_level := 30
    base := hilde.base, ability := hilde.ability }

/-- C8 counterexample: the ranked order is not a strict total order on
distinct cards.  `c8a ≠ c8b`, yet neither sorts strictly before the other
(their key triples coincide: same rarity, level, and embedded timestamp —
`inst_time` ignores the random suffix), and the stable sort keeps whichever
insertion order it is given. -/
theorem C8_counterexample :
    c8a ≠ c8b ∧
    key_lt (sort_key c8a) (sort_key c8b) = false ∧
    key_lt (sort_key c8b) (sort_key c8a) = false ∧
    sort_inventory [c8a, c8b] = [c8a, c8b] ∧
    sort_inventory [c8b, c8a] = [c8b, c8a] := by
  refine ⟨?_, ?_, ?_, ?_, ?_⟩ <;> with_unfolding_all decide

/-- C8 (amended): the ranked sort orders by (rarity rank desc, level desc,
creation time desc); the key comparison is transitive and total (a total
preorder), and for two cards with DISTINCT key triples exactly one sorts
strictly before the other; cards sharing rarity, level and embedded
timestamp are tied, and the stable sort keeps their relative insertion
order.  The sorted output is a permutation of the inventory, sorted under
the key order, and repeated sorting is stable (idempotent). -/
theorem C8_ranked_sort (a b : Card) (inv : List Card)
    (hk : sort_key a ≠ sort_key b) :
    (∀ x y z : ℤ × ℤ × ℤ, key_le x y = true → key_le y z = true → key_le x z = true) ∧
    (∀ x y : ℤ × ℤ × ℤ, (key_le x y || key_le y x) = true) ∧
    ((key_lt (sort_key a) (sort_key b) = true ∧ key_lt (sort_key b) (sort_key a) = false) ∨
     (key_lt (sort_key b) (sort_key a) = true ∧ key_lt (sort_key a) (sort_key b) = false)) ∧
    (sort_inventory inv).Pairwise (fun x y => card_le x y) ∧
    List.Perm (sort_inventory inv) inv ∧
    sort_inventory (sort_inventory inv) = sort_inventory inv := by
  refine ⟨key_le_trans, key_le_total, key_lt_trichotomy _ _ hk, ?_, ?_, ?_⟩
  · exact List.sorted_mergeSort
      (fun a b c hab hbc => key_le_trans (sort_key a) (sort_key b) (sort_key c) hab hbc)
      (fun a b => key_le_total (sort_key a) (sort_key b)) inv
  · exact List.mergeSort_perm inv card_le
  · exact List.mergeSort_of_sorted
      (List.sorted_mergeSort
        (fun a b c hab hbc => key_le_trans (sort_key a) (sort_key b) (sort_key c) hab hbc)
        (fun a b => key_le_total (sort_key a) (sort_key b)) inv)

/-- A higher-level card, giving a key distinct from `c8a`'s. -/
def c8c : Card :=
  { instance_id := "hilde_1700000000099_3333", id := "hilde", name := "Hilde"
    rarity := .Common, level := 2, exp := 0, max_level := 30
    base := hilde.base, ability := hilde.ability }

/-- Witness for `C8_ranked_sort` on cards with distinct keys. -/
theorem C8_ranked_sort_witness :
    sort_key c8a ≠ sort_key c8c ∧
    ((key_lt (sort_key c8a) (sort_key c8c) = true ∧
      key_lt (sort_key c8c) (sort_key c8a) = false) ∨
     (key_lt (sort_key c8c) (sort_key c8a) = true ∧
      key_lt (sort_key c8a) (sort_key c8c) = false)) ∧
    List.Perm (sort_inventory [c8a, c8c]) [c8a, c8c] :=
  ⟨by with_unfolding_all decide,
   (C8_ranked_sort c8a c8c [c8a, c8c] (by with_unfolding_all decide)).2.2.1,
   (C8_ranked_sort c8a c8c [c8a, c8c] (by with_unfolding_all decide)).2.2.2.2.1⟩

/-- Recover `e = .ok a` from `e.toOption = some a`. -/
theorem exceptOkOfToOption {ε α : Type} {e : Except ε α} {a : α}
    (h : e.toOption = some a) : e = .ok a := by
  cases e with
  | ok v =>
    simp [Except.toOption] at h
    rw [h]
  | error err => simp [Except.toOption] at h

/-- C1 (amended): the battle applies the `max(0, stamina - 3)` penalty on
EVERY non-victory outcome — on Defeat and also on Draw (the source's
`else` branch covers both; the spec's draw-exemption does not hold).
Relative to the post-charge state `mid`, the penalty is exactly 3,
floored at 0. -/
theorem C1_loss_penalty (u : User) (tie : Bool) (r : BattleRes)
    (h : battle_cmd u tie = .ok r) (hout : r.outcome ≠ .Victory) :
    r.final = { r.mid with stamina := r.mid.stamina - 3 } ∧
    r.mid.stamina = u.stamina - 5 ∧
    (3 ≤ r.mid.stamina → (r.final.stamina : ℤ) = (r.mid.stamina : ℤ) - 3) ∧
    (r.mid.stamina < 3 → r.final.stamina = 0) := by
  have hmain : r.final = { r.mid with stamina := r.mid.stamina - 3 } ∧
      r.mid.stamina = u.stamina - 5 := by
    unfold battle_cmd at h
    split at h
    · simp at h
    · split at h
      · simp at h
      · split at h
        · simp at h
        · dsimp only at h
          split at h
          · rw [Except.ok.injEq] at h
            subst h
            simp_all
          · rw [Except.ok.injEq] at h
            subst h
            simp
  refine ⟨hmain.1, hmain.2, ?_, ?_⟩
  · intro h3
    rw [hmain.1]
    simp
    omega
  · intro h3
    rw [hmain.1]
    simp
    omega

/-- A deliberately stalemated card: both sides deal the minimum 1 damage per
round and survive the 40-round cap, forcing a Draw. -/
def c1Card : Card :=
  { instance_id := "slow_1000_1111", id := "slow", name := "Slow"
    rarity := .Common, level := 1, exp := 0, max_level := 30
    base := { hp := 1000, atk := 1, defense := 1000, spd := 1000 }, ability := "" }

def c1User : User :=
  { stamina := 20, gold := 0, inventory := [c1Card], last_hourly := 0, level := 1
    exp := 0, floor := 1, floor_unlocked := 1, selected := some "slow_1000_1111" }

/-- C1 counterexample: a battle that ends in a Draw (round cap reached, both
alive) still loses 3 stamina: mid-battle stamina is 15 (= 20 - 5), and the
final stamina is 12, not 15 as the claim's draw-exemption requires. -/
theorem C1_counterexample :
    (battle_cmd c1User true).toOption.map
      (fun r => (r.outcome, r.rounds, r.mid.stamina, r.final.stamina)) =
      some (.Draw, 40, 15, 12) := by
  with_unfolding_all decide

def c1DummyRes : BattleRes :=
  { mid := c1User, final := c1User, outcome := .Draw, order := [], log := [], rounds := 0 }

/-- The concrete result of the Draw battle above. -/
def c1Res : BattleRes := (battle_cmd c1User true).toOption.getD c1DummyRes

/-- Witness for `C1_loss_penalty` at the concrete Draw battle. -/
theorem C1_loss_penalty_witness :
    c1Res.outcome ≠ .Victory ∧
    c1Res.final = { c1Res.mid with stamina := c1Res.mid.stamina - 3 } ∧
    c1Res.mid.stamina = c1User.stamina - 5 := by
  have h : battle_cmd c1User true = .ok c1Res :=
    exceptOkOfToOption (by with_unfolding_all decide)
  have hout : c1Res.outcome ≠ .Victory := by with_unfolding_all decide
  exact ⟨hout, (C1_loss_penalty c1User true c1Res h hout).1,
    (C1_loss_penalty c1User true c1Res h hout).2.1⟩

/-- C3 (amended): `battle_cmd` aborts, mutating nothing, when stamina < 5,
when no card is selected, or when the selected instance id is not owned in
inventory — but it does NOT check the current floor against the unlocked
ceiling.  When the three implemented checks pass, exactly 5 stamina is
deducted and persisted (`r.mid`) at battle start, before combat resolution
and before any reward or penalty. -/
theorem C3_preconditions (u : User) (tie : Bool) :
    (u.stamina < 5 →
      battle_cmd u tie = .error "Not enough stamina. You need 5 to battle.") ∧
    (5 ≤ u.stamina → u.selected = none →
      battle_cmd u tie = .error "No character selected.") ∧
    (∀ sid, 5 ≤ u.stamina → u.selected = some sid →
      u.inventory.find? (fun c => c.instance_id == sid) = none →
      battle_cmd u tie = .error "Your selected character was not found.") ∧
    (∀ sid chosen, 5 ≤ u.stamina → u.selected = some sid →
      u.inventory.find? (fun c => c.instance_id == sid) = some chosen →
      ∃ r, battle_cmd u tie = .ok r ∧
        r.mid = { u with stamina := u.stamina - 5 }) := by
  refine ⟨?_, ?_, ?_, ?_⟩
  · intro h5
    unfold battle_cmd
    rw [if_pos h5]
  · intro h5 hsel
    unfold battle_cmd
    rw [if_neg (by omega), hsel]
  · intro sid h5 hsel hfind
    unfold battle_cmd
    rw [if_neg (by omega), hsel]
    dsimp only
    rw [hfind]
  · intro sid chosen h5 hsel hfind
    unfold battle_cmd
    rw [if_neg (by omega), hsel]
    dsimp only
    rw [hfind]
    dsimp only
    split
    · exact ⟨_, rfl, rfl⟩
    · exact ⟨_, rfl, rfl⟩

/-- A card that loses immediately (enemy acts first and one-shots it). -/
def c3Card : Card :=
  { instance_id := "weak_1000_1", id := "weak", name := "Weak"
    rarity := .Common, level := 1, exp := 0, max_level := 30
    base := { hp := 1, atk := 1, defense := 0, spd := 0 }, ability := "" }

/-- A player whose current floor (2) exceeds the unlocked ceiling (1). -/
def c3User : User :=
  { stamina := 20, gold := 0, inventory := [c3Card], last_hourly := 0, level := 1
    exp := 0, floor := 2, floor_unlocked := 1, selected := some "weak_1000_1" }

/-- C3 counterexample: with the current floor ABOVE the unlocked ceiling the
claim demands an abort with no state mutation, but the battle proceeds and
charges 5 stamina (persisted `mid` stamina 15, then the loss penalty). -/
theorem C3_counterexample :
    c3User.floor_unlocked < c3User.floor ∧
    (battle_cmd c3User true).toOption.map
      (fun r => (r.outcome, r.mid.stamina, r.final.stamina)) =
      some (.Defeat, 15, 12) := by
  refine ⟨by decide, by with_unfolding_all decide⟩

def c3NoSelUser : User :=
  { stamina := 20, gold := 0, inventory := [c3Card], last_hourly := 0, level := 1
    exp := 0, floor := 1, floor_unlocked := 1, selected := none }

def c3GhostUser : User :=
  { stamina := 20, gold := 0, inventory := [c3Card], last_hourly := 0, level := 1
    exp := 0, floor := 1, floor_unlocked := 1, selected := some "ghost_1_1" }

def c3PoorUser : User :=
  { stamina := 4, gold := 0, inventory := [c3Card], last_hourly := 0, level := 1
    exp := 0, floor := 1, floor_unlocked := 1, selected := some "weak_1000_1" }

/-- Witness for `C3_preconditions`: all four branches exercised concretely. -/
theorem C3_preconditions_witness :
    battle_cmd c3PoorUser true = .error "Not enough stamina. You need 5 to battle." ∧
    battle_cmd c3NoSelUser true = .error "No character selected." ∧
    battle_cmd c3GhostUser true = .error "Your selected character was not found." ∧
    (battle_cmd c3User true).toOption.map BattleRes.mid =
      some { c3User with stamina := c3User.stamina - 5 } := by
  refine ⟨?_, ?_, ?_, ?_⟩
  · exact (C3_preconditions c3PoorUser true).1 (by decide)
  · exact (C3_preconditions c3NoSelUser true).2.1 (by decide) rfl
  · exact (C3_preconditions c3GhostUser true).2.2.1 "ghost_1_1" (by decide) rfl
      (by with_unfolding_all decide)
  · obtain ⟨r, hr, hmid⟩ := (C3_preconditions c3User true).2.2.2 "weak_1000_1" c3Card
      (by decide) rfl (by with_unfolding_all decide)
    rw [hr]
    simp [Except.toOption, hmid]

/-- A card strong enough to clear floor 10 in one round. -/
def c6Card : Card :=
  { instance_id := "big_2000_1", id := "big", name := "Big"
    rarity := .Common, level := 1, exp := 0, max_level := 30
    base := { hp := 1000, atk := 10000, defense := 1000, spd := 1000 }, ability := "" }

/-- A player on floor 10 with floor 10 unlocked — a state satisfying the
claimed invariant. -/
def c6User : User :=
  { stamina := 20, gold := 0, inventory := [c6Card], last_hourly := 0, level := 1
    exp := 0, floor := 10, floor_unlocked := 10, selected := some "big_2000_1" }

/-- The player state after winning the floor-10 battle. -/
def c6After : User :=
  ((battle_cmd c6User true).toOption.map BattleRes.final).getD c6User

/-- C6: the floor invariant `current ≤ 10` is violable.  From the invariant-
satisfying state `c6User` (floor 10, unlocked 10), a battle victory raises
`floor_unlocked` to 11 (`floor + 1` with no cap), after which
`-floor 11` passes the `1 ≤ n ≤ floor_unlocked` check of `floor_set` — the
10-cap that `floor next` enforces is missing there — leaving the player on
floor 11. -/
theorem C6_floor_cap_bug :
    (1 ≤ c6User.floor ∧ c6User.floor ≤ 10 ∧ 1 ≤ c6User.floor_unlocked ∧
      c6User.floor ≤ c6User.floor_unlocked) ∧
    (battle_cmd c6User true).toOption.map
      (fun r => (r.outcome, r.final.floor, r.final.floor_unlocked)) =
      some (.Victory, 10, 11) ∧
    (floor_set c6After 11).toOption.map User.floor = some 11 := by
  refine ⟨by decide, ?_, ?_⟩ <;> with_unfolding_all decide

/-- C5: first-turn ability handling.  (i)-(iii): exactly one modifier applies
— the `if/elif` keyword match doubles DEF, else doubles SPD, else multiplies
ATK by 1.5 (`int(atk*1.5) = 3*atk/2`), leaving all other stats unchanged;
(iv) initiative is computed from the ability-buffed speed; (v) the player's
first attack action reverts all stats to base and consumes the buff;
(vi) an enemy action never consumes the buff and computes damage from the
player's CURRENT (possibly buffed) defense — so with enemy initiative the
DEF buff covers the enemy's first attack (viii); (vii) with player
initiative the buff is already gone for the enemy's action of the SAME first
round (reversion is after the player's first action, not after the round). -/
theorem C5_first_turn_ability :
    (∀ ab s, pyIn "DEF" ab = true →
      apply_ability ab s = { s with defense := s.defense * 2 }) ∧
    (∀ ab s, pyIn "DEF" ab = false → pyIn "SPD" ab = true →
      apply_ability ab s = { s with spd := s.spd * 2 }) ∧
    (∀ ab s, pyIn "DEF" ab = false → pyIn "SPD" ab = false → pyIn "ATK" ab = true →
      apply_ability ab s = { s with atk := 3 * s.atk / 2 }) ∧
    (∀ u tie r sid chosen, 5 ≤ u.stamina → u.selected = some sid →
      u.inventory.find? (fun c => c.instance_id == sid) = some chosen →
      battle_cmd u tie = .ok r →
      r.order = turn_order (apply_ability chosen.ability (player_base_stats chosen)).spd
        (make_enemy_for_floor u.floor).spd tie) ∧
    (∀ pb e st, st.buff = true → 0 < st.pHP → 0 < st.eHP →
      (act pb e .player st).1.cur = pb ∧ (act pb e .player st).1.buff = false) ∧
    (∀ pb e st, 0 < st.pHP → 0 < st.eHP →
      (act pb e .enemy st).1.cur = st.cur ∧ (act pb e .enemy st).1.buff = st.buff ∧
      (act pb e .enemy st).2 = [(.enemy, damage_formula e.atk st.cur.defense)]) ∧
    (∀ pb e st, st.buff = true → 0 < st.pHP →
      0 < ((st.eHP : ℤ) - damage_formula st.cur.atk e.defense).toNat → 0 < st.eHP →
      (doRound pb e [.player, .enemy] st).2 =
        [(.player, damage_formula st.cur.atk e.defense),
         (.enemy, damage_formula e.atk pb.defense)]) ∧
    (∀ pb e st, 0 < st.pHP → 0 < st.eHP →
      (doRound pb e [.enemy, .player] st).2.head? =
        some (.enemy, damage_formula e.atk st.cur.defense)) := by
  refine ⟨?_, ?_, ?_, ?_, ?_, ?_, ?_, ?_⟩
  · intro ab s hd
    have hne : ab ≠ "" := by
      intro hc
      subst hc
      simp [pyIn] at hd
    simp [apply_ability, hne, hd]
  · intro ab s hd hs
    have hne : ab ≠ "" := by
      intro hc
      subst hc
      simp [pyIn] at hs
    simp [apply_ability, hne, hd, hs]
  · intro ab s hd hs ha
    have hne : ab ≠ "" := by
      intro hc
      subst hc
      simp [pyIn] at ha
    simp [apply_ability, hne, hd, hs, ha]
  · intro u tie r sid chosen h5 hsel hfind h
    unfold battle_cmd at h
    rw [if_neg (by omega), hsel] at h
    dsimp only at h
    rw [hfind] at h
    dsimp only at h
    split at h <;>
      (rw [Except.ok.injEq] at h; subst h; simp [player_base_stats])
  · intro pb e st hb hp he
    rw [act, if_neg (by omega)]
    simp [hb]
  · intro pb e st hp he
    rw [act, if_neg (by omega)]
    simp
  · intro pb e st hb hp hE he
    have hp' : st.pHP ≠ 0 := by omega
    have he' : st.eHP ≠ 0 := by omega
    have hE' : ((st.eHP : ℤ) - damage_formula st.cur.atk e.defense).toNat ≠ 0 := by omega
    simp [doRound, act, hb, hp', he', hE']
  · intro pb e st hp he
    have hp' : st.pHP ≠ 0 := by omega
    have he' : st.eHP ≠ 0 := by omega
    simp [doRound, act, hp', he']

/-- A level-1 Hilde (DEF ability) owner on floor 1. -/
def c5User : User :=
  { stamina := 20, gold := 0, last_hourly := 0, level := 1, exp := 0
    floor := 1, floor_unlocked := 1, selected := some "hilde_1700000000000_1111"
    inventory := [{ instance_id := "hilde_1700000000000_1111", id := "hilde"
                    name := "Hilde", rarity := .Common, level := 1, exp := 0
                    max_level := 30, base := hilde.base, ability := hilde.ability }] }

def c5DummyRes : BattleRes :=
  { mid := c5User, final := c5User, outcome := .Draw, order := [], log := [], rounds := 0 }

def c5Res : BattleRes := (battle_cmd c5User true).toOption.getD c5DummyRes

/-- The first-round battle state of Hilde vs the floor-1 enemy, DEF buffed. -/
def c5St : BState :=
  { pHP := 89, eHP := 120, cur := { atk := 65, defense := 184, spd := 65 }, buff := true }

def c5Pb : PStats := { atk := 65, defense := 92, spd := 65 }

def c5Enemy : Enemy := make_enemy_for_floor 1

/-- Witness for `C5_first_turn_ability` on the catalog abilities and the
concrete Hilde-vs-floor-1 battle. -/
theorem C5_first_turn_ability_witness :
    apply_ability "First turn: +100% DEF" c5Pb =
      { atk := 65, defense := 184, spd := 65 } ∧
    apply_ability "First turn: +100% SPD" c5Pb =
      { atk := 65, defense := 92, spd := 130 } ∧
    apply_ability "First turn: +50% ATK" c5Pb =
      { atk := 97, defense := 92, spd := 65 } ∧
    c5Res.order = turn_order 65 20 true ∧
    (act c5Pb c5Enemy .player c5St).1.cur = c5Pb ∧
    (act c5Pb c5Enemy .enemy c5St).2 = [(.enemy, damage_formula 25 184)] ∧
    (doRound c5Pb c5Enemy [.player, .enemy] c5St).2 =
      [(.player, damage_formula 65 10), (.enemy, damage_formula 25 92)] ∧
    (doRound c5Pb c5Enemy [.enemy, .player] c5St).2.head? =
      some (.enemy, damage_formula 25 184) := by
  have C := C5_first_turn_ability
  refine ⟨?_, ?_, ?_, ?_, ?_, ?_, ?_, ?_⟩
  · rw [C.1 _ c5Pb (by with_unfolding_all decide)]
    decide
  · rw [C.2.1 _ c5Pb (by with_unfolding_all decide) (by with_unfolding_all decide)]
    decide
  · rw [C.2.2.1 _ c5Pb (by with_unfolding_all decide) (by with_unfolding_all decide)
      (by with_unfolding_all decide)]
    decide
  · have h : battle_cmd c5User true = .ok c5Res :=
      exceptOkOfToOption (by with_unfolding_all decide)
    have := C.2.2.2.1 c5User true c5Res "hilde_1700000000000_1111"
      (c5User.inventory.head (by with_unfolding_all decide))
      (by decide) rfl (by with_unfolding_all decide) h
    rw [this]
    with_unfolding_all decide
  · exact (C.2.2.2.2.1 c5Pb c5Enemy c5St rfl (by decide) (by decide)).1
  · exact (C.2.2.2.2.2.1 c5Pb c5Enemy c5St (by decide) (by decide)).2.2
  · have := C.2.2.2.2.2.2.1 c5Pb c5Enemy c5St rfl (by decide)
      (by with_unfolding_all decide) (by decide)
    rw [this]
    with_unfolding_all decide
  · exact C.2.2.2.2.2.2.2 c5Pb c5Enemy c5St (by decide) (by decide)

theorem gather_sublist (fr : Option Rarity) (fn : Option String) (tpos : Nat) :
    ∀ (i : Nat) (l : List Card), List.Sublist (gather_candidates fr fn tpos i l) l := by
  intro i l
  induction l generalizing i with
  | nil => simp [gather_candidates]
  | cons c rest ih =>
    rw [gather_candidates]
    split
    · exact (ih (i + 1)).cons₂ c
    · exact (ih (i + 1)).cons c

theorem mem_gather (fr : Option Rarity) (fn : Option String) (tpos : Nat) :
    ∀ (i : Nat) (l : List Card) (c : Card), c ∈ gather_candidates fr fn tpos i l →
      matches_filter fr fn c = true ∧ ∃ j, l[j]? = some c ∧ i + j ≠ tpos := by
  intro i l
  induction l generalizing i with
  | nil => simp [gather_candidates]
  | cons d rest ih =>
    intro c hc
    rw [gather_candidates] at hc
    split at hc
    · rename_i hcond
      rcases List.mem_cons.mp hc with rfl | hmem
      · exact ⟨hcond.2, 0, by simp, by omega⟩
      · obtain ⟨hm, j, hj, hne⟩ := ih (i + 1) c hmem
        exact ⟨hm, j + 1, by simpa using hj, by omega⟩
    · obtain ⟨hm, j, hj, hne⟩ := ih (i + 1) c hc
      exact ⟨hm, j + 1, by simpa using hj, by omega⟩

theorem find?_findIdx_spec (p : Card → Bool) :
    ∀ (l : List Card) (t : Card), l.find? p = some t →
      l.findIdx p < l.length ∧ l[l.findIdx p]? = some t := by
  intro l
  induction l with
  | nil => intro t ht; simp at ht
  | cons c rest ih =>
    intro t ht
    by_cases hp : p c = true
    · rw [List.find?_cons_of_pos _ hp] at ht
      injection ht with ht
      subst ht
      rw [List.findIdx_cons, hp]
      simp
    · rw [List.find?_cons_of_neg _ (by simpa using hp)] at ht
      rw [List.findIdx_cons]
      simp only [hp, cond_false]
      obtain ⟨h1, h2⟩ := ih t ht
      constructor
      · simpa using h1
      · simpa using h2

theorem foldl_erase_eq_filter :
    ∀ (ds l : List Card), l.Nodup →
      ds.foldl (fun acc c => acc.erase c) l = l.filter (fun c => decide (c ∉ ds)) := by
  intro ds
  induction ds with
  | nil => intro l h; simp
  | cons d ds ih =>
    intro l h
    rw [List.foldl_cons, ih (l.erase d) (h.erase d), List.Nodup.erase_eq_filter h d,
      List.filter_filter]
    apply List.filter_congr
    intro c _
    by_cases hcd : c = d
    · simp [hcd]
    · simp [hcd]

theorem length_foldl_erase :
    ∀ (ds l : List Card), ds.Nodup → (∀ d ∈ ds, d ∈ l) →
      (ds.foldl (fun acc c => acc.erase c) l).length + ds.length = l.length := by
  intro ds
  induction ds with
  | nil => intro l _ _; simp
  | cons d ds ih =>
    intro l hnd hmem
    rw [List.foldl_cons]
    have hd : d ∈ l := hmem d (by simp)
    have h1 : ∀ e ∈ ds, e ∈ l.erase d := by
      intro e he
      have hne : e ≠ d := by
        intro hc
        subst hc
        exact (List.nodup_cons.mp hnd).1 he
      exact (List.mem_erase_of_ne hne).mpr (hmem e (by simp [he]))
    have := ih (l.erase d) (List.nodup_cons.mp hnd).2 h1
    have hlen : (l.erase d).length = l.length - 1 := List.length_erase_of_mem hd
    have hpos : 1 ≤ l.length := List.length_pos_of_mem hd
    simp only [List.length_cons]
    omega



theorem gained_eq_sum (l : List Card) :
    (pyInt ((l.map (fun c => 50 * rarity_mul c.rarity)).sum)).toNat =
      (l.map (fun c => enhance_exp c.rarity)).sum := by
  have h : ((l.map (fun c => 50 * rarity_mul c.rarity)).sum : ℚ) =
      (((l.map (fun c => enhance_exp c.rarity)).sum : Nat) : ℚ) := by
    induction l with
    | nil => simp
    | cons c rest ih =>
      simp only [List.map_cons, List.sum_cons, ih]
      push_cast
      cases hr : c.rarity <;> simp [rarity_mul, enhance_exp] <;> norm_num
  rw [h, pyInt_natCast]
  omega

def enhanced_target (tcard : Card) (gain : Nat) : Card :=
  { tcard with
    level := (card_level_up tcard.level (tcard.exp + gain) tcard.max_level).1
    exp := (card_level_up tcard.level (tcard.exp + gain) tcard.max_level).2 }

/-- The post-enhancement player state, spec-side: the first-N matching
sacrifices are deleted from the inventory and the target is replaced by its
enhanced version. -/
def enhance_result (u : User) (tid : String) (to_use : List Card) (tcard : Card) : User :=
  { u with
    inventory :=
      update_card (u.inventory.filter (fun c => decide (c ∉ to_use))) tid
        (enhanced_target tcard ((to_use.map (fun c => enhance_exp c.rarity)).sum)) }

/-- C4: `enhance(target, filter, N)` — with the target resolved in inventory
and instance ids unique: if fewer than N non-target cards match the filter
the command fails (no state change); otherwise exactly the first N matching
non-target cards in inventory (insertion) order are consumed — the target
itself is never among them even when it matches the filter — the granted
experience is the truncated sum of `50 * rarityMultiplier`, which equals the
integer per-card sum {Common:50, Rare:75, Epic:100, Legendary:150}, and the
target is updated by adding it and running the card level-up cascade. -/
theorem C4_enhance (u : User) (tid : String) (fr : Option Rarity) (fn : Option String)
    (N : Nat) (tcard : Card) (tpos : Nat) (cands to_use : List Card)
    (hfind : u.inventory.find? (fun c => c.instance_id == tid) = some tcard)
    (hnd : (u.inventory.map Card.instance_id).Nodup)
    (hpos : tpos = u.inventory.findIdx (fun c => c.instance_id == tid))
    (hcand : cands = gather_candidates fr fn tpos 0 u.inventory)
    (huse : to_use = cands.take N) :
    (cands.length < N → enhance_cmd u tid fr fn N = .error "Not enough cards to use.") ∧
    (N ≤ cands.length →
      to_use.length = N ∧
      (∀ c ∈ to_use, matches_filter fr fn c = true) ∧
      tcard ∉ to_use ∧
      (pyInt ((to_use.map (fun c => 50 * rarity_mul c.rarity)).sum)).toNat =
        (to_use.map (fun c => enhance_exp c.rarity)).sum ∧
      (u.inventory.filter (fun c => decide (c ∉ to_use))).length + N = u.inventory.length ∧
      enhance_cmd u tid fr fn N = .ok (enhance_result u tid to_use tcard)) := by
  subst hpos
  subst hcand
  subst huse
  constructor
  · intro hlt
    unfold enhance_cmd
    rw [hfind]
    dsimp only
    rw [if_pos hlt]
  · intro hN
    obtain ⟨htlt, htpos⟩ := find?_findIdx_spec _ u.inventory tcard hfind
    have hinvnd : u.inventory.Nodup := hnd.of_map
    have hsub := gather_sublist fr fn (u.inventory.findIdx (fun c => c.instance_id == tid))
      0 u.inventory
    have husesub := (List.take_sublist N _).trans hsub
    have husend := husesub.nodup hinvnd
    have husemem : ∀ d ∈ (gather_candidates fr fn
        (u.inventory.findIdx (fun c => c.instance_id == tid)) 0 u.inventory).take N,
        d ∈ u.inventory := fun d hd => husesub.subset hd
    have hlen : ((gather_candidates fr fn
        (u.inventory.findIdx (fun c => c.instance_id == tid)) 0 u.inventory).take N).length
        = N := by
      rw [List.length_take]
      omega
    have hmatch : ∀ c ∈ (gather_candidates fr fn
        (u.inventory.findIdx (fun c => c.instance_id == tid)) 0 u.inventory).take N,
        matches_filter fr fn c = true := fun c hc =>
      (mem_gather fr fn _ 0 u.inventory c (List.take_subset _ _ hc)).1
    have hnot : tcard ∉ (gather_candidates fr fn
        (u.inventory.findIdx (fun c => c.instance_id == tid)) 0 u.inventory).take N := by
      intro hmem
      obtain ⟨-, j, hj, hne⟩ := mem_gather fr fn _ 0 u.inventory tcard
        (List.take_subset _ _ hmem)
      have hj2 : (u.inventory.map Card.instance_id)[j]? = some tcard.instance_id := by
        rw [List.getElem?_map, hj]
        rfl
      have ht2 : (u.inventory.map Card.instance_id)[u.inventory.findIdx
          (fun c => c.instance_id == tid)]? = some tcard.instance_id := by
        rw [List.getElem?_map, htpos]
        rfl
      have hjlt : j < (u.inventory.map Card.instance_id).length := by
        by_contra hc
        rw [List.getElem?_eq_none (by simpa using Nat.le_of_not_lt hc)] at hj2
        exact Option.noConfusion hj2
      have := List.getElem?_inj hjlt hnd (hj2.trans ht2.symm)
      omega
    have hsum := gained_eq_sum ((gather_candidates fr fn
      (u.inventory.findIdx (fun c => c.instance_id == tid)) 0 u.inventory).take N)
    have herase := foldl_erase_eq_filter ((gather_candidates fr fn
      (u.inventory.findIdx (fun c => c.instance_id == tid)) 0 u.inventory).take N)
      u.inventory hinvnd
    have hlen2 := length_foldl_erase ((gather_candidates fr fn
      (u.inventory.findIdx (fun c => c.instance_id == tid)) 0 u.inventory).take N)
      u.inventory husend husemem
    refine ⟨hlen, hmatch, hnot, hsum, ?_, ?_⟩
    · rw [← herase]
      omega
    · unfold enhance_cmd
      rw [hfind]
      dsimp only
      rw [if_neg (by omega)]
      rw [herase, hsum]
      rfl



def c4Target : Card :=
  { instance_id := "t_1_1", id := "hilde", name := "Hilde", rarity := .Common
    level := 1, exp := 0, max_level := 30, base := hilde.base, ability := hilde.ability }

def c4A : Card :=
  { instance_id := "a_2_1", id := "hilde", name := "Hilde", rarity := .Common
    level := 1, exp := 0, max_level := 30, base := hilde.base, ability := hilde.ability }

def c4B : Card :=
  { instance_id := "b_3_1", id := "joo_shiyoon", name := "Joo Shiyoon", rarity := .Rare
    level := 1, exp := 0, max_level := 40, base := joo_shiyoon.base
    ability := joo_shiyoon.ability }

def c4User : User :=
  { stamina := 20, gold := 0, inventory := [c4Target, c4A, c4B], last_hourly := 0
    level := 1, exp := 0, floor := 1, floor_unlocked := 1, selected := none }

theorem C4_enhance_witness :
    enhance_cmd c4User "t_1_1" none none 3 = .error "Not enough cards to use." ∧
    enhance_cmd c4User "t_1_1" none none 2 =
      .ok (enhance_result c4User "t_1_1" [c4A, c4B] c4Target) ∧
    (enhance_result c4User "t_1_1" [c4A, c4B] c4Target).inventory =
      [{ c4Target with level := 2, exp := 25 }] ∧
    c4Target ∉ [c4A, c4B] := by
  have C3 := C4_enhance c4User "t_1_1" none none 3 c4Target 0
    (gather_candidates none none 0 0 c4User.inventory)
    ((gather_candidates none none 0 0 c4User.inventory).take 3)
    (by with_unfolding_all decide) (by with_unfolding_all decide)
    (by with_unfolding_all decide) rfl rfl
  have C2 := C4_enhance c4User "t_1_1" none none 2 c4Target 0
    (gather_candidates none none 0 0 c4User.inventory)
    ((gather_candidates none none 0 0 c4User.inventory).take 2)
    (by with_unfolding_all decide) (by with_unfolding_all decide)
    (by with_unfolding_all decide) rfl rfl
  refine ⟨C3.1 (by with_unfolding_all decide), ?_, ?_, ?_⟩
  · have h := (C2.2 (by with_unfolding_all decide)).2.2.2.2.2
    rw [h]
    exact congrArg Except.ok (by with_unfolding_all decide)
  · with_unfolding_all decide
  · with_unfolding_all decide

end Testazzo
